import Mathlib

/-!
Verification of the NCAA basketball data-update orchestrator
(`update.py`, `populate_all.py`, `populate_events.py`, `database.py`).

The development shallowly embeds the parsing functions and the seven-phase
sync orchestrator.  Upstream JSON payloads are modelled post-decoding as
typed structures; Python string/number conversions (`int(...)`,
`float(...)`, `str.split`, `str.strip`, truthiness) are modelled
explicitly over character lists.  SQLite tables are modelled as lists of
row structures; `INSERT OR REPLACE` is modelled as a keyed upsert, with
the table keys taken from the schema (the schema file itself is not part
of the sources; its keys are modelled from the spec, see `teamKey`,
`playerKey`, `eventKey`, `standingKey`).

Floating-point statistic values are represented exactly as scaled
decimals (`PyFloat`); no claim below depends on IEEE rounding, only on
whether a value parsed at all.
-/

namespace Ncaab

/-! ## Python primitive conversions, modelled over character lists -/

/-- Nonempty all-digit character list to its numeric value
(the core of Python `int(...)` on a decimal string). -/
def digitsToNat (cs : List Char) : Option Nat :=
  if cs ≠ [] ∧ cs.all Char.isDigit then
    some (cs.foldl (fun acc c => 10 * acc + (c.toNat - '0'.toNat)) 0)
  else none

/-- Python `str.strip()`: drop leading and trailing whitespace. -/
def pyStripChars (cs : List Char) : List Char :=
  ((cs.dropWhile Char.isWhitespace).reverse.dropWhile Char.isWhitespace).reverse

/-- Python `str.split(sep)` for a one-character separator. -/
def splitOnChar (c : Char) (cs : List Char) : List (List Char) :=
  match cs with
  | [] => [[]]
  | x :: xs =>
    let r := splitOnChar c xs
    if x = c then [] :: r
    else
      match r with
      | [] => [[x]]
      | h :: t => (x :: h) :: t

/-- Python `int(s)` on a string: strip whitespace, optional sign, digits;
`none` models a raised `ValueError`.
(Underscore separators accepted by CPython are not modelled; the upstream
feed never emits them and no claim depends on them.) -/
def pyIntChars (cs : List Char) : Option Int :=
  let t := pyStripChars cs
  match t with
  | '-' :: rest => (digitsToNat rest).map (fun n => -(n : Int))
  | '+' :: rest => (digitsToNat rest).map (fun n => (n : Int))
  | _ => (digitsToNat t).map (fun n => (n : Int))

/-- Python `int(s)` over a `String`. -/
def pyInt (s : String) : Option Int :=
  pyIntChars s.toList

/-- Exact scaled-decimal representation of a parsed Python float:
the value `num / 10 ^ exp10`.  Upstream statistic strings are plain
decimals (optionally signed, optionally with a fractional part), which
this represents exactly; exponent/`inf`/`nan` forms are not modelled. -/
structure PyFloat where
  num : Int
  exp10 : Nat
  deriving DecidableEq

/-- Unsigned decimal body of Python `float(s)`: `digits`, `digits.digits`,
`.digits` or `digits.`. -/
def pyFloatBody (cs : List Char) : Option PyFloat :=
  match splitOnChar '.' cs with
  | [a] => (digitsToNat a).map (fun n => ⟨(n : Int), 0⟩)
  | [a, b] =>
    if a = [] ∧ b = [] then none
    else
      match (if a = [] then some 0 else digitsToNat a),
            (if b = [] then some 0 else digitsToNat b) with
      | some x, some y => some ⟨(x : Int) * (10 : Int) ^ b.length + (y : Int), b.length⟩
      | _, _ => none
  | _ => none

/-- Python `float(s)`: strip whitespace, optional sign, decimal body;
`none` models a raised `ValueError`. -/
def pyFloatChars (cs : List Char) : Option PyFloat :=
  let t := pyStripChars cs
  match t with
  | '-' :: rest => (pyFloatBody rest).map (fun f => ⟨-f.num, f.exp10⟩)
  | '+' :: rest => pyFloatBody rest
  | _ => pyFloatBody t

/-! ## `populate_all.parse_team_statistics` -/

/-- One element of a boxscore `statistics` array, after JSON decoding:
the code reads `stat.get('name', '')` and `stat.get('displayValue', '')`,
so a missing field is modelled as `""`. -/
structure Stat where
  name : String
  displayValue : String
  deriving DecidableEq

/-- The `stats_dict` built by `parse_team_statistics` followed by
`get_stat(name)`: a Python dict assignment loop, so the last occurrence
of a name wins, and a missing name yields the default `None`. -/
def statsLookup (statistics : List Stat) (name : String) : Option String :=
  (statistics.reverse.find? (fun st => st.name == name)).map (·.displayValue)

/-- Inner helper `parse_made_attempted` of `parse_team_statistics`
(the player parser's inner `parse_ma` is textually identical and reuses
this definition): `None`/`''`/`'--'` give `(None, None)`; otherwise split
on `'-'` and convert both of the first two parts with `int`, any failure
(including a missing second part) giving `(None, None)`. -/
def parse_made_attempted (s? : Option String) : Option Int × Option Int :=
  match s? with
  | none => (none, none)
  | some s =>
    if s = "" ∨ s = "--" then (none, none)
    else
      let parts := splitOnChar '-' s.toList
      match parts.get? 0, parts.get? 1 with
      | some a, some b =>
        match pyIntChars a, pyIntChars b with
        | some x, some y => (some x, some y)
        | _, _ => (none, none)
      | _, _ => (none, none)

/-- Inner helper `parse_int` of `parse_team_statistics` (default `None`). -/
def parse_int (s? : Option String) : Option Int :=
  match s? with
  | none => none
  | some s => if s = "" ∨ s = "--" then none else pyIntChars s.toList

/-- Inner helper `parse_float` of `parse_team_statistics` (default `None`):
`float(stat_str.replace('%', ''))`, any failure giving the default. -/
def parse_float (s? : Option String) : Option PyFloat :=
  match s? with
  | none => none
  | some s =>
    if s = "" ∨ s = "--" then none
    else pyFloatChars (s.toList.filter (fun c => c ≠ '%'))

/-- A row of the `team_statistics` table: the 30-tuple returned by
`parse_team_statistics`, in source order. -/
structure TeamStatRow where
  event_id : Nat
  team_id : Nat
  home_away : String
  fg_made : Option Int
  fg_att : Option Int
  fg_pct : Option PyFloat
  three_made : Option Int
  three_att : Option Int
  three_pct : Option PyFloat
  ft_made : Option Int
  ft_att : Option Int
  ft_pct : Option PyFloat
  total_reb : Option Int
  off_reb : Option Int
  def_reb : Option Int
  assists : Option Int
  steals : Option Int
  blocks : Option Int
  turnovers : Option Int
  team_turnovers : Option Int
  total_turnovers : Option Int
  fouls : Option Int
  tech_fouls : Option Int
  flagrant_fouls : Option Int
  turnover_points : Option Int
  fast_break_points : Option Int
  points_in_paint : Option Int
  largest_lead : Option Int
  lead_changes : Option Int
  lead_percentage : Option PyFloat
  deriving DecidableEq

/-- `populate_all.parse_team_statistics`: builds `stats_dict`, then parses
each named statistic with the inner helpers; the final two tuple slots
(`lead_changes`, `lead_percentage`) are the literal `None, None` of the
source.  The Python signature is `Optional[tuple]` but the body always
reaches its single `return`. -/
def parse_team_statistics (event_id team_id : Nat) (home_away : String)
    (statistics : List Stat) : Option TeamStatRow :=
  let get_stat := statsLookup statistics
  let fgma := parse_made_attempted (get_stat "fieldGoalsMade-fieldGoalsAttempted")
  let tpma := parse_made_attempted
    (get_stat "threePointFieldGoalsMade-threePointFieldGoalsAttempted")
  let ftma := parse_made_attempted (get_stat "freeThrowsMade-freeThrowsAttempted")
  some {
    event_id := event_id
    team_id := team_id
    home_away := home_away
    fg_made := fgma.1
    fg_att := fgma.2
    fg_pct := parse_float (get_stat "fieldGoalPct")
    three_made := tpma.1
    three_att := tpma.2
    three_pct := parse_float (get_stat "threePointFieldGoalPct")
    ft_made := ftma.1
    ft_att := ftma.2
    ft_pct := parse_float (get_stat "freeThrowPct")
    total_reb := parse_int (get_stat "totalRebounds")
    off_reb := parse_int (get_stat "offensiveRebounds")
    def_reb := parse_int (get_stat "defensiveRebounds")
    assists := parse_int (get_stat "assists")
    steals := parse_int (get_stat "steals")
    blocks := parse_int (get_stat "blocks")
    turnovers := parse_int (get_stat "turnovers")
    team_turnovers := parse_int (get_stat "teamTurnovers")
    total_turnovers := parse_int (get_stat "totalTurnovers")
    fouls := parse_int (get_stat "fouls")
    tech_fouls := parse_int (get_stat "technicalFouls")
    flagrant_fouls := parse_int (get_stat "flagrantFouls")
    turnover_points := parse_int (get_stat "turnoverPoints")
    fast_break_points := parse_int (get_stat "fastBreakPoints")
    points_in_paint := parse_int (get_stat "pointsInPaint")
    largest_lead := parse_int (get_stat "largestLead")
    lead_changes := none
    lead_percentage := none }

/-! ## `populate_all.parse_player_statistics` -/

/-- The `athlete` object of a box-score player payload:
`player_data.get('athlete', {})` makes a missing object look like one
with every field absent, so `id` is `Option` (`none` also stands for a
JSON `null`) and the names default to `""`. -/
structure AthleteRef where
  id : Option String
  displayName : String
  shortName : String
  deriving DecidableEq

/-- A box-score player payload (`athlete_data` in the source):
`active` defaults to `True`, `starter` to `False`, `stats` to the list
read from the payload. -/
structure PlayerData where
  athlete : AthleteRef
  active : Bool
  starter : Bool
  stats : List String
  deriving DecidableEq

/-- A row of the `player_statistics` table: the 23-tuple returned by
`parse_player_statistics`, in source order. -/
structure PlayerRow where
  event_id : Nat
  team_id : Nat
  athlete_id : Int
  athlete_name : String
  athlete_short_name : String
  is_active : Bool
  is_starter : Bool
  minutes_played : Option String
  points : Int
  fg_made : Option Int
  fg_att : Option Int
  three_made : Option Int
  three_att : Option Int
  ft_made : Option Int
  ft_att : Option Int
  rebounds : Option Int
  off_reb : Option Int
  def_reb : Option Int
  assists : Option Int
  turnovers : Option Int
  steals : Option Int
  blocks : Option Int
  fouls : Option Int
  deriving DecidableEq

/-- Python `int(s)` where a failure raises `ValueError` (modelled as
`Except.error`). -/
def pyIntE (s : String) : Except String Int :=
  match pyInt s with
  | some n => Except.ok n
  | none => Except.error "ValueError"

/-- Inner helper `parse_stat(index, default)` of
`parse_player_statistics`: an out-of-range index (caught `IndexError`),
`'--'` or `''` give the default; `none` here stands for the default, to
be replaced by `0` at the two call sites that pass one. -/
def pyBoxStat (stats : List String) (i : Nat) : Option String :=
  match stats.get? i with
  | none => none
  | some v => if v = "--" ∨ v = "" then none else some v

/-- The pattern `int(parse_stat(i, 0)) if parse_stat(i) else None` used
for the counting statistics: a present value is converted with `int`
(which may raise), an absent one gives `None`. -/
def optIntStat (stats : List String) (i : Nat) : Except String (Option Int) :=
  match pyBoxStat stats i with
  | none => Except.ok none
  | some v => (pyIntE v).map (fun n => some n)

/-- `populate_all.parse_player_statistics`.  Returns `ok none` where the
source returns `None` (falsy athlete id; stat array shorter than 10),
`ok (some row)` where it returns the 23-tuple, and `error` where an
uncaught `int(...)` conversion raises `ValueError` (unparseable athlete
id, points, or counting statistic). -/
def parse_player_statistics (event_id team_id : Nat) (p : PlayerData) :
    Except String (Option PlayerRow) := do
  match p.athlete.id with
  | none => return none
  | some idStr =>
    if idStr = "" then return none
    else do
      let athlete_id ← pyIntE idStr
      let stats := p.stats
      if stats.length < 10 then return none
      else do
        let minutes := pyBoxStat stats 0
        let points ← (match pyBoxStat stats 1 with
          | none => Except.ok (0 : Int)
          | some v => pyIntE v)
        let fgma := parse_made_attempted (pyBoxStat stats 2)
        let tpma := parse_made_attempted (pyBoxStat stats 3)
        let ftma := parse_made_attempted (pyBoxStat stats 4)
        let offR ← optIntStat stats 5
        let defR ← optIntStat stats 6
        let reb ← optIntStat stats 7
        let ast ← optIntStat stats 8
        let stl ← optIntStat stats 9
        let blk ← optIntStat stats 10
        let tov ← optIntStat stats 11
        let pf ← optIntStat stats 12
        return some {
          event_id := event_id
          team_id := team_id
          athlete_id := athlete_id
          athlete_name := p.athlete.displayName
          athlete_short_name := p.athlete.shortName
          is_active := p.active
          is_starter := p.starter
          minutes_played := minutes
          points := points
          fg_made := fgma.1
          fg_att := fgma.2
          three_made := tpma.1
          three_att := tpma.2
          ft_made := ftma.1
          ft_att := ftma.2
          rebounds := reb
          off_reb := offR
          def_reb := defR
          assists := ast
          turnovers := tov
          steals := stl
          blocks := blk
          fouls := pf }

/-! ## Keyed upsert: the model of SQLite `INSERT OR REPLACE`

`INSERT OR REPLACE` on a table with a uniqueness constraint deletes any
row that conflicts on the key and inserts the new row; a batch
(`executemany`) applies this row by row, in order. -/

section Upsert

variable {α : Type _} {κ : Type _} [DecidableEq κ]

/-- `INSERT OR REPLACE` of one row into a table keyed by `key`. -/
def upsertRow (key : α → κ) (t : List α) (r : α) : List α :=
  t.filter (fun x => decide (key x ≠ key r)) ++ [r]

/-- `executemany` of an `INSERT OR REPLACE` statement: row-by-row upsert. -/
def upsertBatch (key : α → κ) (t : List α) (rs : List α) : List α :=
  rs.foldl (upsertRow key) t

/-- Number of rows of a table whose key is `k`. -/
def keyCount (key : α → κ) (k : κ) (t : List α) : Nat :=
  (t.filter (fun x => decide (key x = k))).length

end Upsert

/-! ## The relational store

Tables are lists of rows.  The schema file (`database_schema.sql`) is not
among the sources; the uniqueness keys of the tables are therefore
modelled from the spec data model. -/

/-- A row of the `events` table, restricted to the columns the
orchestrator's control flow reads (`event_id`, `date`, `is_completed`,
the team references, scores and line scores).  The remaining columns of
the 22-tuple produced by `parse_event_data` (venue, status detail,
attendance, broadcast, `api_ref`, …) are carried by upserts unchanged and
never branched on, so they are omitted from the row model.  `date` is the
stored timestamp in sortable encoded form (`ORDER BY date` on the ISO
string orders like this number). -/
structure Event where
  event_id : Nat
  season_id : Nat
  week : Option Nat
  home_team_id : Nat
  away_team_id : Nat
  date : Nat
  is_completed : Bool
  home_score : Option Int
  away_score : Option Int
  home_line_scores : Option String
  away_line_scores : Option String
  deriving DecidableEq

/-- A row of the `weekly_rankings` table (Phase 5 insert tuple order). -/
structure RankingRow where
  season_id : Nat
  week_number : Nat
  ranking_type_id : Nat
  team_id : Nat
  current_rank : Int
  previous_rank : Option Int
  points : PyFloat
  first_place_votes : Int
  deriving DecidableEq

/-- A row of the `standings` table (Phase 6 insert tuple order);
the eight statistic fields come from `stat_dict.get(name, default)`, so a
name present with a `null` value yields `none`. -/
structure StandingRow where
  season_id : Nat
  season_type_id : Nat
  group_id : Nat
  team_id : Nat
  rank : Option PyFloat
  wins : Option PyFloat
  losses : Option PyFloat
  win_pct : Option PyFloat
  conf_wins : Option PyFloat
  conf_losses : Option PyFloat
  streak : Option PyFloat
  differential : Option PyFloat
  deriving DecidableEq

/-- A row of the `groups` table (conferences), as read by Phase 6. -/
structure GroupRow where
  group_id : Nat
  season_id : Nat
  name : String
  deriving DecidableEq

/-- The local relational store: the tables the orchestrator writes or
queries.  (`game_odds`, `game_predictions`, `athletes` and `venues` are
not involved in any claim and are omitted.) -/
structure Store where
  events : List Event
  team_statistics : List TeamStatRow
  player_statistics : List PlayerRow
  weekly_rankings : List RankingRow
  standings : List StandingRow
  groups : List GroupRow
  deriving DecidableEq

/-- Modelled from the spec: the schema file defining table keys is not
among the sources.  Spec §3: Event has a unique id (`event_id`). -/
def eventKey (e : Event) : Nat := e.event_id

/-- Modelled from the spec: the schema file defining table keys is not
among the sources.  Spec §3: TeamStatistics is keyed by `(event, team)`. -/
def teamKey (r : TeamStatRow) : Nat × Nat := (r.event_id, r.team_id)

/-- Modelled from the spec: the schema file defining table keys is not
among the sources.  Spec §3: PlayerStatistics is keyed by
`(event, team, athlete)`. -/
def playerKey (r : PlayerRow) : Nat × Nat × Int :=
  (r.event_id, r.team_id, r.athlete_id)

/-- Modelled from the spec: the schema file defining table keys is not
among the sources.  Spec §3: Standing is keyed by `(season, group, team)`
(the `season_type_id` column is data, not part of the key). -/
def standingKey (r : StandingRow) : Nat × Nat × Nat :=
  (r.season_id, r.group_id, r.team_id)

/-! ## Phase 1 — event window sync

The fetch-and-parse pipeline (`get_events`, `get_from_ref`,
`parse_event_data`) is deterministic in the upstream responses; its
outcome for a window is modelled as the list of per-reference parse
results (`none` = dropped with an error recorded).  The parsed rows are
upserted in one `INSERT OR REPLACE` batch keyed by `event_id`. -/

/-- The successfully parsed event rows of a window, in feed order. -/
def phase1Events (feed : List (Option Event)) : List Event :=
  feed.filterMap id

/-- Phase 1's effect on the store: one batch upsert of the parsed rows. -/
def phase1 (feed : List (Option Event)) (s : Store) : Store :=
  { s with events := upsertBatch eventKey s.events (phase1Events feed) }

/-- Phase 1's return value: the ids of parsed events with
`is_completed` true, handed to Phase 2. -/
def phase1CompletedIds (feed : List (Option Event)) : List Nat :=
  ((phase1Events feed).filter (fun e => e.is_completed)).map (fun e => e.event_id)

/-! ## Phase 2 — parallel summary fetch

A game summary payload, post JSON decoding, as read by `process_game`:
`boxscore.teams` (team ids already converted, `int(... .get('id', 0))`)
and `boxscore.players` (per-team groups of stat groups of athletes). -/

/-- One entry of `boxscore.teams`. -/
structure TeamBox where
  team_id : Nat
  homeAway : String
  statistics : List Stat
  deriving DecidableEq

/-- One entry of a player group's `statistics` array. -/
structure StatGroup where
  athletes : List PlayerData
  deriving DecidableEq

/-- One entry of `boxscore.players`. -/
structure PlayerTeamGroup where
  team_id : Nat
  statistics : List StatGroup
  deriving DecidableEq

/-- A fetched game summary (odds/predictor blocks omitted: not claimed). -/
structure Summary where
  teams : List TeamBox
  players : List PlayerTeamGroup
  deriving DecidableEq

/-- The team-statistics rows `process_game` appends for one event:
nothing when the summary fetch returns a falsy payload, otherwise one
parsed row per `boxscore.teams` entry (`if parsed:` = `filterMap`).
These appends happen before the player loop, so they are complete even
when player parsing later raises. -/
def teamRowsOf (summary : Nat → Option Summary) (event_id : Nat) : List TeamStatRow :=
  match summary event_id with
  | none => []
  | some sm =>
    sm.teams.filterMap (fun tb =>
      parse_team_statistics event_id tb.team_id tb.homeAway tb.statistics)

/-- The athlete loop of `process_game` for one athlete list: appends each
parsed row, skips `None`s, and stops the whole game's player processing
at the first raised `ValueError` (the exception propagates to
`process_game`'s handler).  Returns the appended rows and whether an
exception cut the loop short. -/
def collectAthletes (event_id team_id : Nat) :
    List PlayerData → List PlayerRow × Bool
  | [] => ([], false)
  | a :: rest =>
    match parse_player_statistics event_id team_id a with
    | Except.error _ => ([], true)
    | Except.ok none => collectAthletes event_id team_id rest
    | Except.ok (some r) =>
      (r :: (collectAthletes event_id team_id rest).1,
       (collectAthletes event_id team_id rest).2)

/-- The stat-group loop of `process_game` for one team's player group. -/
def collectStatGroups (event_id team_id : Nat) :
    List StatGroup → List PlayerRow × Bool
  | [] => ([], false)
  | g :: rest =>
    if (collectAthletes event_id team_id g.athletes).2 then
      ((collectAthletes event_id team_id g.athletes).1, true)
    else
      ((collectAthletes event_id team_id g.athletes).1 ++
         (collectStatGroups event_id team_id rest).1,
       (collectStatGroups event_id team_id rest).2)

/-- The `boxscore.players` loop of `process_game`. -/
def collectPlayerGroups (event_id : Nat) :
    List PlayerTeamGroup → List PlayerRow × Bool
  | [] => ([], false)
  | tg :: rest =>
    if (collectStatGroups event_id tg.team_id tg.statistics).2 then
      ((collectStatGroups event_id tg.team_id tg.statistics).1, true)
    else
      ((collectStatGroups event_id tg.team_id tg.statistics).1 ++
         (collectPlayerGroups event_id rest).1,
       (collectPlayerGroups event_id rest).2)

/-- The player-statistics rows `process_game` appends for one event
(possibly cut short by a raised `ValueError`). -/
def playerRowsOf (summary : Nat → Option Summary) (event_id : Nat) : List PlayerRow :=
  match summary event_id with
  | none => []
  | some sm => (collectPlayerGroups event_id sm.players).1

/-- The team-statistics buffer Phase 2 accumulates for a list of event
ids, in sequential (`workers = 1`) completion order.  Other completion
orders are modelled by `Schedule` below. -/
def phase2TeamBuffer (summary : Nat → Option Summary) (ids : List Nat) :
    List TeamStatRow :=
  ids.flatMap (teamRowsOf summary)

/-- The player-statistics buffer Phase 2 accumulates, sequentially. -/
def phase2PlayerBuffer (summary : Nat → Option Summary) (ids : List Nat) :
    List PlayerRow :=
  ids.flatMap (playerRowsOf summary)

/-! ## Phase 3 — batched flush -/

/-- Phase 3's successful effect on the store: one `INSERT OR REPLACE`
batch per buffer (an empty buffer is skipped by `if buffer:`, which is
also a no-op upsert). -/
def phase3Insert (s : Store) (tb : List TeamStatRow) (pb : List PlayerRow) : Store :=
  { s with
    team_statistics := upsertBatch teamKey s.team_statistics tb
    player_statistics := upsertBatch playerKey s.player_statistics pb }

/-- The orchestrator state Phase 3 manipulates: the store, the two
statistics buffers (the odds/predictions buffers follow the identical
uncaught pattern and are omitted), and `self.stats['errors']`. -/
structure RunState where
  store : Store
  team_stats_buffer : List TeamStatRow
  player_stats_buffer : List PlayerRow
  errors : List String
  deriving DecidableEq

/-- The team-statistics step of `phase_3_insert_statistics`:
`if self.team_stats_buffer:` then `executemany(...)` and clear.  The
`executemany` call sits in no `try`; `teamRaise = some msg` models the
store raising, and the raise propagates out of the phase
(`Except.error`). -/
def phase3FlushTeam (teamRaise : Option String) (st : RunState) :
    Except String RunState :=
  if st.team_stats_buffer.isEmpty then Except.ok st
  else
    match teamRaise with
    | some msg => Except.error msg
    | none =>
      Except.ok
        { st with
          store := { st.store with
            team_statistics :=
              upsertBatch teamKey st.store.team_statistics st.team_stats_buffer }
          team_stats_buffer := [] }

/-- The player-statistics step of `phase_3_insert_statistics`, same
uncaught pattern. -/
def phase3FlushPlayer (playerRaise : Option String) (st : RunState) :
    Except String RunState :=
  if st.player_stats_buffer.isEmpty then Except.ok st
  else
    match playerRaise with
    | some msg => Except.error msg
    | none =>
      Except.ok
        { st with
          store := { st.store with
            player_statistics :=
              upsertBatch playerKey st.store.player_statistics st.player_stats_buffer }
          player_stats_buffer := [] }

/-- `phase_3_insert_statistics`: flush the buffers in source order; a
store-level exception in any `executemany` escapes the phase (and `run`'s
outer handler prints it and re-raises, aborting the run). -/
def phase3Run (teamRaise playerRaise : Option String) (st : RunState) :
    Except String RunState := do
  let st1 ← phase3FlushTeam teamRaise st
  phase3FlushPlayer playerRaise st1

/-! ## Phase 4 — gap detection and backfill -/

/-- Whether the store holds any `team_statistics` row for an event
(the `NOT EXISTS` subquery of the first gap query). -/
def hasStats (s : Store) (event_id : Nat) : Bool :=
  s.team_statistics.any (fun r => r.event_id == event_id)

/-- `ORDER BY date DESC`, as a stable insertion sort. -/
def insertByDateDesc (e : Event) : List Event → List Event
  | [] => [e]
  | x :: xs => if e.date ≤ x.date then x :: insertByDateDesc e xs else e :: x :: xs

/-- Sort events by descending date (`ORDER BY e.date DESC`). -/
def sortByDateDesc : List Event → List Event
  | [] => []
  | x :: xs => insertByDateDesc x (sortByDateDesc xs)

/-- Gap class (a): completed events with zero TeamStatistics rows,
newest first, capped by `LIMIT backfill_limit`. -/
def statsGapIds (s : Store) (limit : Nat) : List Nat :=
  ((sortByDateDesc (s.events.filter
      (fun e => e.is_completed && !hasStats s e.event_id))).take limit).map
    (fun e => e.event_id)

/-- Gap class (b): completed events missing a line score, newest first,
capped by `LIMIT backfill_limit`. -/
def lineScoreGapIds (s : Store) (limit : Nat) : List Nat :=
  ((sortByDateDesc (s.events.filter
      (fun e => e.is_completed &&
        (e.home_line_scores == none || e.away_line_scores == none)))).take limit).map
    (fun e => e.event_id)

/-- `all_gaps = list(set(gap_event_ids + line_score_gaps))`: the union of
the two capped gap classes, de-duplicated (Python set order is
unspecified; `dedup` keeps first occurrences, and no claim depends on the
order). -/
def phase4GapIds (s : Store) (limit : Nat) : List Nat :=
  (statsGapIds s limit ++ lineScoreGapIds s limit).dedup

/-- `phase_4_backfill_gaps`: query both gap classes, and when any gap
exists, run the Phase 2 fetch over the union and flush with Phase 3. -/
def phase4 (summary : Nat → Option Summary) (limit : Nat) (s : Store) : Store :=
  let gaps := phase4GapIds s limit
  if gaps.isEmpty then s
  else phase3Insert s (phase2TeamBuffer summary gaps) (phase2PlayerBuffer summary gaps)

/-! ## Phase 5 — rankings update -/

/-- One entry of the latest ranking week's `ranks` array. -/
structure RankEntry where
  team_id : Nat
  current : Int
  previous : Option Int
  points : PyFloat
  first_place_votes : Int
  deriving DecidableEq

/-- One ranking week of the rankings overview (`week`, `ranks`). -/
structure RankingWeek where
  week : Nat
  ranks : List RankEntry
  deriving DecidableEq

/-- The rankings overview payload (`rankings_data['rankings']`). -/
structure RankingsFeed where
  rankings : List RankingWeek
  deriving DecidableEq

/-- The weekly-rankings tuple built for one `rank_data` entry
(`ranking_type_id` is the constant 1, AP Poll). -/
def parseRank (season week : Nat) (r : RankEntry) : RankingRow :=
  { season_id := season
    week_number := week
    ranking_type_id := 1
    team_id := r.team_id
    current_rank := r.current
    previous_rank := r.previous
    points := r.points
    first_place_votes := r.first_place_votes }

/-- Whether a stored row matches the `(season_id, week_number,
ranking_type_id)` of the `DELETE` statement. -/
def rankingKeyMatches (season week : Nat) (r : RankingRow) : Bool :=
  r.season_id == season && r.week_number == week && r.ranking_type_id == 1

/-- `phase_5_update_rankings` (success path; a falsy or `rankings`-less
payload returns early, and the surrounding `try` only matters for store
failures): take the latest week, `DELETE` all rows for
`(season, week, 1)`, then plain-`INSERT` the freshly parsed set. -/
def phase5 (feed : Option RankingsFeed) (season : Nat) (s : Store) : Store :=
  match feed with
  | none => s
  | some f =>
    match f.rankings with
    | [] => s
    | latest :: _ =>
      let week := latest.week
      let kept := s.weekly_rankings.filter (fun r => !rankingKeyMatches season week r)
      let newRows := latest.ranks.map (parseRank season week)
      { s with weekly_rankings := kept ++ newRows }

/-! ## Phase 6 — standings update -/

/-- One entry of a conference's standings payload: the team id (already
converted) and the `stats` array as `(name, value)` pairs
(`value` is `Option`al: `s.get('value')` defaults to `None`). -/
structure StandEntry where
  team_id : Nat
  stats : List (String × Option PyFloat)
  deriving DecidableEq

/-- `stat_dict = {s['name']: s['value']}` (last duplicate wins) followed
by `stat_dict.get(name, default)`. -/
def statGet (stats : List (String × Option PyFloat)) (name : String)
    (default : PyFloat) : Option PyFloat :=
  match stats.reverse.find? (fun p => p.1 == name) with
  | none => some default
  | some p => p.2

/-- The standings tuple built for one entry of a conference's payload. -/
def parseStanding (season season_type group : Nat) (e : StandEntry) : StandingRow :=
  { season_id := season
    season_type_id := season_type
    group_id := group
    team_id := e.team_id
    rank := statGet e.stats "rank" ⟨0, 0⟩
    wins := statGet e.stats "wins" ⟨0, 0⟩
    losses := statGet e.stats "losses" ⟨0, 0⟩
    win_pct := statGet e.stats "winPercent" ⟨0, 0⟩
    conf_wins := statGet e.stats "conferenceWins" ⟨0, 0⟩
    conf_losses := statGet e.stats "conferenceLosses" ⟨0, 0⟩
    streak := statGet e.stats "streak" ⟨0, 0⟩
    differential := statGet e.stats "differential" ⟨0, 0⟩ }

/-- The conference groups Phase 6 iterates: `SELECT group_id, name FROM
groups WHERE season_id = ?`. -/
def phase6Conferences (season : Nat) (s : Store) : List Nat :=
  (s.groups.filter (fun g => g.season_id == season)).map (fun g => g.group_id)

/-- The `standings_data` accumulated by Phase 6: for each conference
group of the target season, the parsed entries of its fetched payload
(`none` models a per-group fetch failure or a payload without `entries`,
both skipped by `continue`); `season_type_id` is the constant 2. -/
def phase6Data (standingsFeed : Nat → Option (List StandEntry)) (season : Nat)
    (s : Store) : List StandingRow :=
  (phase6Conferences season s).flatMap (fun g =>
    match standingsFeed g with
    | none => []
    | some entries => entries.map (parseStanding season 2 g))

/-- `phase_6_update_standings` (success path): write the accumulated
rows with one `INSERT OR REPLACE` batch — there is no `DELETE`. -/
def phase6 (standingsFeed : Nat → Option (List StandEntry)) (season : Nat)
    (s : Store) : Store :=
  { s with
    standings :=
      upsertBatch standingKey s.standings (phase6Data standingsFeed season s) }

/-! ## Concurrent append schedules (Phase 2 worker pool)

Worker threads append parsed rows to a shared Python list; under CPython
each single `list.append` is atomic, so a concurrent execution delivers
some interleaving of the per-task append sequences.  `Schedule tasks l`
says `l` is one such interleaving. -/

/-- `PickHead ts x ts'`: some task of `ts` has head `x`, and `ts'` is
`ts` with that head consumed. -/
inductive PickHead {α : Type _} : List (List α) → α → List (List α) → Prop
  | here {x : α} {t : List α} {ts : List (List α)} :
      PickHead ((x :: t) :: ts) x (t :: ts)
  | there {t : List α} {ts ts' : List (List α)} {x : α} :
      PickHead ts x ts' → PickHead (t :: ts) x (t :: ts')

/-- `Schedule tasks l`: `l` is an interleaving of the task sequences,
i.e. a possible content of the shared buffer after all workers finish. -/
inductive Schedule {α : Type _} : List (List α) → List α → Prop
  | done {ts : List (List α)} : (∀ t ∈ ts, t = []) → Schedule ts []
  | step {ts ts' : List (List α)} {x : α} {l : List α} :
      PickHead ts x ts' → Schedule ts' l → Schedule ts (x :: l)

/-! ## Derived notions and concrete instances used by the theorems -/

/-- The completed events of a store lacking any TeamStatistics row: the
result set of Phase 4's first gap query before `LIMIT`, and the quantity
whose convergence the spec demands. -/
def statsGapEvents (s : Store) : List Event :=
  s.events.filter (fun e => e.is_completed && !hasStats s e.event_id)

/-- One successful Phase 2 → Phase 3 cycle over a list of event ids. -/
def phase23Cycle (summary : Nat → Option Summary) (ids : List Nat) (s : Store) :
    Store :=
  phase3Insert s (phase2TeamBuffer summary ids) (phase2PlayerBuffer summary ids)

/-- The row `parse_team_statistics` builds from an empty `statistics`
array: every statistic field is `None`. -/
def emptyTeamRow (event_id team_id : Nat) (home_away : String) : TeamStatRow :=
  { event_id := event_id
    team_id := team_id
    home_away := home_away
    fg_made := none, fg_att := none, fg_pct := none
    three_made := none, three_att := none, three_pct := none
    ft_made := none, ft_att := none, ft_pct := none
    total_reb := none, off_reb := none, def_reb := none
    assists := none, steals := none, blocks := none
    turnovers := none, team_turnovers := none, total_turnovers := none
    fouls := none, tech_fouls := none, flagrant_fouls := none
    turnover_points := none, fast_break_points := none, points_in_paint := none
    largest_lead := none, lead_changes := none, lead_percentage := none }

/-- An events-table row template for concrete test stores. -/
def mkEvent (id date : Nat) (completed : Bool) (hls als : Option String) : Event :=
  { event_id := id
    season_id := 2026
    week := none
    home_team_id := 10
    away_team_id := 20
    date := date
    is_completed := completed
    home_score := none
    away_score := none
    home_line_scores := hls
    away_line_scores := als }

/-- A store with no rows at all. -/
def emptyStore : Store :=
  { events := [], team_statistics := [], player_statistics := []
    weekly_rankings := [], standings := [], groups := [] }

/-- Concrete store for the C2 counterexample: event 1 is completed with
line scores but no statistics rows; event 2 is completed with statistics
but a missing home line score. -/
def storeC2 : Store :=
  { emptyStore with
    events := [mkEvent 1 5 true (some "[40,41]") (some "[38,39]"),
               mkEvent 2 6 true none (some "[30,31]")]
    team_statistics := [emptyTeamRow 2 7 "home"] }

/-- Concrete upstream summary map for witnesses: events 1 and 2 have a
canonical two-team boxscore with empty statistics arrays. -/
def summaryW : Nat → Option Summary := fun id =>
  if id = 1 ∨ id = 2 then
    some { teams := [⟨10, "home", []⟩, ⟨20, "away", []⟩], players := [] }
  else none

/-- Concrete store for the C1 witness: one completed event without
statistics. -/
def storeC1 : Store :=
  { emptyStore with
    events := [mkEvent 1 5 true (some "[40,41]") (some "[38,39]")] }

/-- Concrete malformed box-score player payload for the C8
counterexample: athlete id present but not an integer, stat array
shorter than 10. -/
def badPlayerC8 : PlayerData :=
  { athlete := { id := some "x", displayName := "", shortName := "" }
    active := true
    starter := false
    stats := [] }

/-- Concrete run state for the C4 counterexample: a non-empty
team-statistics buffer about to be flushed. -/
def runStateC4 : RunState :=
  { store := emptyStore
    team_stats_buffer := [emptyTeamRow 1 10 "home"]
    player_stats_buffer := []
    errors := [] }

/-- A stale standings row for the C5 counterexample: team 42 of
conference group 8. -/
def staleStandingC5 : StandingRow :=
  { season_id := 2026, season_type_id := 2, group_id := 8, team_id := 42
    rank := some ⟨9, 0⟩, wins := some ⟨1, 0⟩, losses := some ⟨20, 0⟩
    win_pct := some ⟨48, 3⟩, conf_wins := some ⟨0, 0⟩, conf_losses := some ⟨18, 0⟩
    streak := some ⟨-4, 0⟩, differential := some ⟨-98, 1⟩ }

/-- Concrete store for the C5 counterexample: one conference group (8)
in season 2026, with a stored standings row for team 42. -/
def storeC5 : Store :=
  { emptyStore with
    groups := [⟨8, 2026, "Test Conference"⟩]
    standings := [staleStandingC5] }

/-- Concrete standings feed for the C5 counterexample: group 8's fresh
payload contains only team 7 — team 42 has dropped out. -/
def feedC5 : Nat → Option (List StandEntry) := fun g =>
  if g = 8 then some [⟨7, [("wins", some ⟨12, 0⟩)]⟩] else none

/-- Concrete Phase 1 feed for the C7 witness: two parsed events (one a
re-publication of event 1) and one parse failure. -/
def feedW : List (Option Event) :=
  [some (mkEvent 1 5 true none none), none, some (mkEvent 1 6 false none none),
   some (mkEvent 3 7 true none none)]

/-- Concrete ranking feed: one week (`w`) whose ranks are teams
`1..n` in order. -/
def rankFeed (w n : Nat) : RankingsFeed :=
  { rankings := [{ week := w
                   ranks := (List.range n).map (fun i =>
                     { team_id := i + 1
                       current := (i : Int) + 1
                       previous := none
                       points := ⟨(1600 : Int) - i, 0⟩
                       first_place_votes := 0 }) }] }

/-! ## Lemmas on keyed upsert -/

section UpsertLemmas

variable {α : Type _} {κ : Type _} [DecidableEq κ]

theorem upsertBatch_cons (key : α → κ) (t : List α) (r : α) (rs : List α) :
    upsertBatch key t (r :: rs) = upsertBatch key (upsertRow key t r) rs := rfl

theorem upsertRow_split (key : α → κ) (t : List α) (r : α) (rs : List α) :
    (upsertRow key t r).filter (fun x => decide (key x ∉ rs.map key)) =
      t.filter (fun x => decide (key x ∉ (r :: rs).map key)) ++
        [r].filter (fun x => decide (key x ∉ rs.map key)) := by
  unfold upsertRow
  rw [List.filter_append, List.filter_filter]
  congr 1
  apply List.filter_congr
  intro x _
  by_cases h1 : key x = key r <;> by_cases h2 : key x ∈ rs.map key <;>
    simp [h1, h2]

theorem upsertBatch_eq_filter_append (key : α → κ) (t rs : List α) :
    upsertBatch key t rs =
      t.filter (fun x => decide (key x ∉ rs.map key)) ++ upsertBatch key [] rs := by
  induction rs generalizing t with
  | nil => simp [upsertBatch]
  | cons r rs ih =>
    have h0 : upsertRow key [] r = [r] := rfl
    rw [upsertBatch_cons, ih, upsertBatch_cons key [], h0, ih [r],
      upsertRow_split key t r rs, List.append_assoc]

theorem mem_of_mem_upsertBatch {key : α → κ} {t rs : List α} {x : α}
    (h : x ∈ upsertBatch key t rs) : x ∈ t ∨ x ∈ rs := by
  induction rs generalizing t with
  | nil => exact Or.inl h
  | cons r rs ih =>
    rw [upsertBatch_cons] at h
    rcases ih h with h' | h'
    · rcases List.mem_append.mp h' with h'' | h''
      · exact Or.inl (List.mem_of_mem_filter h'')
      · simp only [List.mem_singleton] at h''
        exact Or.inr (h'' ▸ List.mem_cons_self r rs)
    · exact Or.inr (List.mem_cons_of_mem r h')

theorem keyCount_upsertRow (key : α → κ) (k : κ) (t : List α) (r : α) :
    keyCount key k (upsertRow key t r) =
      if key r = k then 1 else keyCount key k t := by
  unfold keyCount upsertRow
  rw [List.filter_append, List.length_append, List.filter_filter]
  by_cases h : key r = k
  · have h1 : t.filter (fun a => decide (key a = k) && decide (key a ≠ key r)) = [] := by
      apply List.filter_eq_nil_iff.mpr
      intro a _
      by_cases ha : key a = k <;> simp [ha, h]
    rw [h1]
    simp [h]
  · have h1 : t.filter (fun a => decide (key a = k) && decide (key a ≠ key r)) =
        t.filter (fun a => decide (key a = k)) := by
      apply List.filter_congr
      intro a _
      by_cases ha : key a = k
      · have hkr : ¬ k = key r := fun hh => h hh.symm
        simp [ha, hkr]
      · simp [ha]
    rw [h1]
    simp [h]

theorem keyCount_upsertBatch (key : α → κ) (k : κ) (t rs : List α) :
    keyCount key k (upsertBatch key t rs) =
      if k ∈ rs.map key then 1 else keyCount key k t := by
  induction rs generalizing t with
  | nil => simp [upsertBatch]
  | cons r rs ih =>
    rw [upsertBatch_cons, ih]
    rw [keyCount_upsertRow]
    by_cases hm : k ∈ rs.map key
    · simp [hm]
    · by_cases hr : key r = k
      · simp [hm, hr, List.mem_cons]
      · have hcons : ¬ k ∈ (r :: rs).map key := by
          simp only [List.map_cons, List.mem_cons]
          rintro (h' | h')
          · exact hr h'.symm
          · exact hm h'
        have hrk : ¬ k = key r := fun hh => hr hh.symm
        simp [hm, hr, hrk, hcons]

theorem keyCount_pos_iff (key : α → κ) (k : κ) (t : List α) :
    0 < keyCount key k t ↔ ∃ x ∈ t, key x = k := by
  rw [keyCount, ← List.countP_eq_length_filter, List.countP_pos_iff]
  simp

theorem exists_key_upsertBatch_of_mem (key : α → κ) {rs : List α} {r : α}
    (t : List α) (h : r ∈ rs) :
    ∃ y ∈ upsertBatch key t rs, key y = key r := by
  rw [← keyCount_pos_iff, keyCount_upsertBatch,
    if_pos (List.mem_map_of_mem key h)]
  exact Nat.one_pos

theorem exists_key_upsertBatch_of_exists (key : α → κ) {t : List α} {k : κ}
    (rs : List α) (h : ∃ x ∈ t, key x = k) :
    ∃ y ∈ upsertBatch key t rs, key y = k := by
  rw [← keyCount_pos_iff] at h ⊢
  rw [keyCount_upsertBatch]
  split
  · exact Nat.one_pos
  · exact h

theorem nodupKeys_upsertRow {key : α → κ} {t : List α} (r : α)
    (h : (t.map key).Nodup) : ((upsertRow key t r).map key).Nodup := by
  unfold upsertRow
  rw [List.map_append, List.nodup_append]
  refine ⟨List.Nodup.sublist ((t.filter_sublist).map key) h, by simp, ?_⟩
  intro a ha hb
  simp only [List.map_cons, List.map_nil, List.mem_singleton] at hb
  rcases List.mem_map.mp ha with ⟨x, hx, rfl⟩
  have hne := List.of_mem_filter hx
  simp only [decide_eq_true_eq] at hne
  exact hne hb

theorem nodupKeys_upsertBatch {key : α → κ} {t : List α} (rs : List α)
    (h : (t.map key).Nodup) : ((upsertBatch key t rs).map key).Nodup := by
  induction rs generalizing t with
  | nil => exact h
  | cons r rs ih => exact ih (nodupKeys_upsertRow r h)

theorem upsertBatch_nil_of_nodupKeys {key : α → κ} {rs : List α}
    (h : (rs.map key).Nodup) : upsertBatch key [] rs = rs := by
  induction rs with
  | nil => rfl
  | cons r rs ih =>
    rw [List.map_cons, List.nodup_cons] at h
    have h0 : upsertRow key [] r = [r] := rfl
    rw [upsertBatch_cons, h0, upsertBatch_eq_filter_append]
    have h1 : [r].filter (fun x => decide (key x ∉ rs.map key)) = [r] := by
      simp
      intro x hx hh
      exact h.1 (hh ▸ List.mem_map_of_mem key hx)
    rw [h1, ih h.2]
    rfl

theorem upsertBatch_idem (key : α → κ) (t rs : List α) :
    upsertBatch key (upsertBatch key t rs) rs = upsertBatch key t rs := by
  have hsub : ∀ b ∈ upsertBatch key ([] : List α) rs, key b ∈ rs.map key := by
    intro b hb
    rcases mem_of_mem_upsertBatch hb with h' | h'
    · exact absurd h' (List.not_mem_nil b)
    · exact List.mem_map_of_mem key h'
  conv_lhs => rw [upsertBatch_eq_filter_append key t rs]
  rw [upsertBatch_eq_filter_append key
    (t.filter (fun x => decide (key x ∉ rs.map key)) ++ upsertBatch key [] rs) rs]
  rw [List.filter_append, List.filter_filter]
  have h1 : t.filter (fun a =>
      decide (key a ∉ rs.map key) && decide (key a ∉ rs.map key)) =
      t.filter (fun a => decide (key a ∉ rs.map key)) := by
    apply List.filter_congr
    intro a _
    exact Bool.and_self _
  have h2 : (upsertBatch key ([] : List α) rs).filter
      (fun x => decide (key x ∉ rs.map key)) = [] := by
    apply List.filter_eq_nil_iff.mpr
    intro b hb
    simp [hsub b hb]
  rw [h1, h2, List.append_nil, ← upsertBatch_eq_filter_append]

theorem upsertBatch_perm_congr {key : α → κ} {l₁ l₂ : List α} (t : List α)
    (hp : l₁.Perm l₂) (hnd : (l₁.map key).Nodup) :
    (upsertBatch key t l₁).Perm (upsertBatch key t l₂) := by
  have hnd2 : (l₂.map key).Nodup := ((hp.map key).nodup_iff).mp hnd
  rw [upsertBatch_eq_filter_append key t l₁, upsertBatch_eq_filter_append key t l₂,
    upsertBatch_nil_of_nodupKeys hnd, upsertBatch_nil_of_nodupKeys hnd2]
  have hf : t.filter (fun x => decide (key x ∉ l₁.map key)) =
      t.filter (fun x => decide (key x ∉ l₂.map key)) := by
    apply List.filter_congr
    intro x _
    exact decide_eq_decide.mpr (not_congr (hp.map key).mem_iff)
  rw [hf]
  exact List.Perm.append_left _ hp

end UpsertLemmas

/-! ## Lemmas on sorting and the gap queries -/

theorem insertByDateDesc_perm (e : Event) (l : List Event) :
    (insertByDateDesc e l).Perm (e :: l) := by
  induction l with
  | nil => exact List.Perm.refl _
  | cons x xs ih =>
    unfold insertByDateDesc
    by_cases h : e.date ≤ x.date
    · rw [if_pos h]
      exact (ih.cons x).trans (List.Perm.swap e x xs)
    · rw [if_neg h]

theorem sortByDateDesc_perm (l : List Event) : (sortByDateDesc l).Perm l := by
  induction l with
  | nil => exact List.Perm.refl _
  | cons x xs ih =>
    exact (insertByDateDesc_perm x (sortByDateDesc xs)).trans (ih.cons x)

theorem mem_statsGapIds {s : Store} {limit : Nat} {e : Event}
    (hmem : e ∈ statsGapEvents s)
    (hlen : (statsGapEvents s).length ≤ limit) :
    e.event_id ∈ statsGapIds s limit := by
  unfold statsGapIds
  have hperm := sortByDateDesc_perm
    (s.events.filter (fun e => e.is_completed && !hasStats s e.event_id))
  have hlen' : (sortByDateDesc (s.events.filter
      (fun e => e.is_completed && !hasStats s e.event_id))).length ≤ limit := by
    rw [hperm.length_eq]
    exact hlen
  rw [List.take_of_length_le hlen']
  exact List.mem_map_of_mem _ (hperm.mem_iff.mpr hmem)

theorem mem_phase4GapIds {s : Store} {limit : Nat} {e : Event}
    (hmem : e ∈ statsGapEvents s)
    (hlen : (statsGapEvents s).length ≤ limit) :
    e.event_id ∈ phase4GapIds s limit := by
  unfold phase4GapIds
  rw [List.mem_dedup, List.mem_append]
  exact Or.inl (mem_statsGapIds hmem hlen)

/-! ## Lemmas on append schedules -/

theorem pickHead_perm {α : Type _} {ts ts' : List (List α)} {x : α}
    (h : PickHead ts x ts') : ts.flatten.Perm (x :: ts'.flatten) := by
  induction h with
  | here => exact List.Perm.refl _
  | there h ih =>
    rename_i t ts₀ ts₀' x₀
    rw [List.flatten_cons, List.flatten_cons]
    exact (List.Perm.append_left t ih).trans List.perm_middle

theorem schedule_perm {α : Type _} {ts : List (List α)} {l : List α}
    (h : Schedule ts l) : l.Perm ts.flatten := by
  induction h with
  | done hall =>
    rw [List.flatten_eq_nil_iff.mpr hall]
  | step hp _ ih =>
    exact (ih.cons _).trans (pickHead_perm hp).symm

theorem schedule_cons_nil {α : Type _} {ts : List (List α)} {l : List α}
    (h : Schedule ts l) : Schedule ([] :: ts) l := by
  induction h with
  | done hall =>
    refine Schedule.done ?_
    intro t ht
    rcases List.mem_cons.mp ht with h' | h'
    · exact h'
    · exact hall t h'
  | step hp _ ih => exact Schedule.step (PickHead.there hp) ih

theorem schedule_append_head {α : Type _} {ts : List (List α)} {l : List α}
    (t : List α) (h : Schedule ts l) : Schedule (t :: ts) (t ++ l) := by
  induction t with
  | nil => exact schedule_cons_nil h
  | cons c t ih => exact Schedule.step PickHead.here ih

theorem schedule_flatten {α : Type _} (ts : List (List α)) :
    Schedule ts ts.flatten := by
  induction ts with
  | nil => exact Schedule.done (by intro t ht; cases ht)
  | cons t ts ih => exact schedule_append_head t ih

/-! ## Shape lemmas for parsed rows -/

theorem except_bind_ok {ε α β : Type _} {m : Except ε α} {f : α → Except ε β}
    {b : β} (h : m >>= f = Except.ok b) :
    ∃ a, m = Except.ok a ∧ f a = Except.ok b := by
  cases m with
  | error e => simp [Bind.bind, Except.bind] at h
  | ok a => exact ⟨a, rfl, h⟩

theorem except_ok_bind {ε α β : Type _} (a : α) (f : α → Except ε β) :
    (Except.ok a >>= f) = f a := rfl

theorem parse_team_statistics_fields {event_id team_id : Nat}
    {home_away : String} {stats : List Stat} {r : TeamStatRow}
    (h : parse_team_statistics event_id team_id home_away stats = some r) :
    r.event_id = event_id ∧ r.team_id = team_id ∧ r.home_away = home_away := by
  unfold parse_team_statistics at h
  cases Option.some.inj h
  exact ⟨rfl, rfl, rfl⟩

theorem teamRowsOf_event {summary : Nat → Option Summary} {i : Nat}
    {r : TeamStatRow} (h : r ∈ teamRowsOf summary i) : r.event_id = i := by
  unfold teamRowsOf at h
  cases hsm : summary i with
  | none => rw [hsm] at h; cases h
  | some sm =>
    rw [hsm] at h
    rcases List.mem_filterMap.mp h with ⟨tb, _, hp⟩
    exact (parse_team_statistics_fields hp).1

theorem teamRows_keys (i : Nat) (tbs : List TeamBox) :
    ((tbs.filterMap (fun tb =>
        parse_team_statistics i tb.team_id tb.homeAway tb.statistics)).map teamKey) =
      tbs.map (fun tb => (i, tb.team_id)) := by
  induction tbs with
  | nil => rfl
  | cons tb tbs ih =>
    rw [show (tb :: tbs).filterMap (fun tb =>
          parse_team_statistics i tb.team_id tb.homeAway tb.statistics) =
        (parse_team_statistics i tb.team_id tb.homeAway tb.statistics).toList ++
          tbs.filterMap (fun tb =>
            parse_team_statistics i tb.team_id tb.homeAway tb.statistics)
      from List.filterMap_cons _ _ _ ▸ rfl]
    rw [List.map_append, ih]
    rfl

theorem teamRowsOf_keys {summary : Nat → Option Summary} {i : Nat} {sm : Summary}
    (hsm : summary i = some sm) :
    (teamRowsOf summary i).map teamKey = sm.teams.map (fun tb => (i, tb.team_id)) := by
  unfold teamRowsOf
  rw [hsm]
  exact teamRows_keys i sm.teams

theorem parse_player_statistics_fields {e t : Nat} {p : PlayerData} {r : PlayerRow}
    (h : parse_player_statistics e t p = Except.ok (some r)) :
    r.event_id = e ∧ r.team_id = t := by
  unfold parse_player_statistics at h
  split at h
  · exact Option.noConfusion (Except.ok.inj h)
  · split at h
    · exact Option.noConfusion (Except.ok.inj h)
    · rcases except_bind_ok h with ⟨aid, _, h⟩
      dsimp only at h
      split at h
      · exact Option.noConfusion (Except.ok.inj h)
      · rcases except_bind_ok h with ⟨pts, _, h⟩
        rcases except_bind_ok h with ⟨v5, _, h⟩
        rcases except_bind_ok h with ⟨v6, _, h⟩
        rcases except_bind_ok h with ⟨v7, _, h⟩
        rcases except_bind_ok h with ⟨v8, _, h⟩
        rcases except_bind_ok h with ⟨v9, _, h⟩
        rcases except_bind_ok h with ⟨v10, _, h⟩
        rcases except_bind_ok h with ⟨v11, _, h⟩
        rcases except_bind_ok h with ⟨v12, _, h⟩
        cases Option.some.inj (Except.ok.inj h)
        exact ⟨rfl, rfl⟩

theorem collectAthletes_fields {e t : Nat} {ps : List PlayerData} {r : PlayerRow}
    (h : r ∈ (collectAthletes e t ps).1) : r.event_id = e ∧ r.team_id = t := by
  induction ps with
  | nil => cases h
  | cons a ps ih =>
    unfold collectAthletes at h
    cases hp : parse_player_statistics e t a with
    | error msg => rw [hp] at h; cases h
    | ok o =>
      rw [hp] at h
      cases o with
      | none => exact ih h
      | some r' =>
        rcases List.mem_cons.mp h with h' | h'
        · exact h' ▸ parse_player_statistics_fields hp
        · exact ih h'

theorem collectStatGroups_fields {e t : Nat} {gs : List StatGroup} {r : PlayerRow}
    (h : r ∈ (collectStatGroups e t gs).1) : r.event_id = e ∧ r.team_id = t := by
  induction gs with
  | nil => cases h
  | cons g gs ih =>
    unfold collectStatGroups at h
    by_cases herr : (collectAthletes e t g.athletes).2
    · rw [if_pos herr] at h
      exact collectAthletes_fields h
    · rw [if_neg herr] at h
      rcases List.mem_append.mp h with h' | h'
      · exact collectAthletes_fields h'
      · exact ih h'

theorem collectPlayerGroups_event {e : Nat} {tgs : List PlayerTeamGroup}
    {r : PlayerRow} (h : r ∈ (collectPlayerGroups e tgs).1) : r.event_id = e := by
  induction tgs with
  | nil => cases h
  | cons tg tgs ih =>
    unfold collectPlayerGroups at h
    by_cases herr : (collectStatGroups e tg.team_id tg.statistics).2
    · rw [if_pos herr] at h
      exact (collectStatGroups_fields h).1
    · rw [if_neg herr] at h
      rcases List.mem_append.mp h with h' | h'
      · exact (collectStatGroups_fields h').1
      · exact ih h'

theorem playerRowsOf_event {summary : Nat → Option Summary} {i : Nat}
    {r : PlayerRow} (h : r ∈ playerRowsOf summary i) : r.event_id = i := by
  unfold playerRowsOf at h
  cases hsm : summary i with
  | none => rw [hsm] at h; cases h
  | some sm =>
    rw [hsm] at h
    exact collectPlayerGroups_event h

/-- Joined per-event row sequences have pairwise-distinct keys when the
event ids are distinct, each row carries its event id, and keys are
distinct within one event. -/
theorem flatten_keys_nodup {α : Type _} {κ' : Type _} [DecidableEq κ']
    (key1 : α → Nat) (key2 : α → κ') {ids : List Nat} {rowsOf : Nat → List α}
    (hids : ids.Nodup)
    (hid : ∀ i ∈ ids, ∀ r ∈ rowsOf i, key1 r = i)
    (hnd : ∀ i ∈ ids, ((rowsOf i).map key2).Nodup) :
    (((ids.map rowsOf).flatten).map (fun r => (key1 r, key2 r))).Nodup := by
  induction ids with
  | nil => exact List.nodup_nil
  | cons i ids ih =>
    rw [List.map_cons, List.flatten_cons, List.map_append, List.nodup_append]
    rw [List.nodup_cons] at hids
    refine ⟨?_, ?_, ?_⟩
    · have h2 := hnd i (List.mem_cons_self i ids)
      refine List.Nodup.of_map Prod.snd ?_
      rw [List.map_map]
      exact h2
    · exact ih hids.2 (fun j hj => hid j (List.mem_cons_of_mem i hj))
        (fun j hj => hnd j (List.mem_cons_of_mem i hj))
    · intro a ha hb
      rcases List.mem_map.mp ha with ⟨r, hr, rfl⟩
      rcases List.mem_map.mp hb with ⟨r', hr', heq⟩
      rcases List.mem_flatten.mp hr' with ⟨l', hl', hr''⟩
      rcases List.mem_map.mp hl' with ⟨j, hj, rfl⟩
      have h1 : key1 r = i := hid i (List.mem_cons_self i ids) r hr
      have h2 : key1 r' = j := hid j (List.mem_cons_of_mem i hj) r' hr''
      have : j = i := by
        have := congrArg Prod.fst heq
        simp only at this
        rw [h2, h1] at this
        exact this
      exact hids.1 (this ▸ hj)

theorem keyCount_cons {α : Type _} {κ : Type _} [DecidableEq κ] (key : α → κ)
    (k : κ) (r : α) (t : List α) :
    keyCount key k (r :: t) = (if key r = k then 1 else 0) + keyCount key k t := by
  unfold keyCount
  rw [List.filter_cons]
  by_cases h : key r = k
  · simp [h, Nat.add_comm]
  · simp [h]

/-- On a table whose rows for event `e` all belong to the two teams `h`
and `a`, the number of rows for `e` is the sum of the two per-key
counts. -/
theorem count_event_split (t : List TeamStatRow) (e h a : Nat) (hne : h ≠ a)
    (hall : ∀ r ∈ t, r.event_id = e → r.team_id = h ∨ r.team_id = a) :
    (t.filter (fun r => r.event_id == e)).length =
      keyCount teamKey (e, h) t + keyCount teamKey (e, a) t := by
  induction t with
  | nil => rfl
  | cons r t ih =>
    have htail : ∀ x ∈ t, x.event_id = e → x.team_id = h ∨ x.team_id = a :=
      fun x hx => hall x (List.mem_cons_of_mem r hx)
    rw [keyCount_cons, keyCount_cons]
    by_cases he : r.event_id = e
    · have hlen : ((r :: t).filter (fun r => r.event_id == e)).length =
          (t.filter (fun r => r.event_id == e)).length + 1 := by
        simp [List.filter_cons, he]
      rcases hall r (List.mem_cons_self r t) he with hh | hha
      · have k1 : teamKey r = (e, h) := by
          simp [teamKey, he, hh]
        have k2 : teamKey r ≠ (e, a) := by
          rw [k1]
          simp [hne]
        rw [hlen, if_pos k1, if_neg k2, ih htail]
        omega
      · have k1 : teamKey r ≠ (e, h) := by
          have : teamKey r = (e, a) := by simp [teamKey, he, hha]
          rw [this]
          simp
          exact fun hh => hne hh.symm
        have k2 : teamKey r = (e, a) := by
          simp [teamKey, he, hha]
        rw [hlen, if_neg k1, if_pos k2, ih htail]
        omega
    · have hlen : ((r :: t).filter (fun r => r.event_id == e)).length =
          (t.filter (fun r => r.event_id == e)).length := by
        simp [List.filter_cons, he]
      have k1 : teamKey r ≠ (e, h) := fun hk => he (congrArg Prod.fst hk)
      have k2 : teamKey r ≠ (e, a) := fun hk => he (congrArg Prod.fst hk)
      rw [hlen, if_neg k1, if_neg k2, ih htail]
      omega

/-- Upserting a batch whose rows for event `e` carry only the keys
`(e, h)` and `(e, a)` into a table with the same property — where each of
the two keys is either present in the batch or already counted once —
leaves exactly one row per key, hence exactly 2 rows for the event, and
preserves the property. -/
theorem teamBatch_two_rows (t rs : List TeamStatRow) (e h a : Nat) (hne : h ≠ a)
    (hall_t : ∀ r ∈ t, r.event_id = e → r.team_id = h ∨ r.team_id = a)
    (hall_rs : ∀ r ∈ rs, r.event_id = e → r.team_id = h ∨ r.team_id = a)
    (hh : (e, h) ∈ rs.map teamKey ∨ keyCount teamKey (e, h) t = 1)
    (ha : (e, a) ∈ rs.map teamKey ∨ keyCount teamKey (e, a) t = 1) :
    keyCount teamKey (e, h) (upsertBatch teamKey t rs) = 1 ∧
    keyCount teamKey (e, a) (upsertBatch teamKey t rs) = 1 ∧
    (∀ r ∈ upsertBatch teamKey t rs, r.event_id = e →
      r.team_id = h ∨ r.team_id = a) ∧
    ((upsertBatch teamKey t rs).filter (fun r => r.event_id == e)).length = 2 := by
  have c1 : keyCount teamKey (e, h) (upsertBatch teamKey t rs) = 1 := by
    rw [keyCount_upsertBatch]
    rcases hh with h' | h'
    · rw [if_pos h']
    · split
      · rfl
      · exact h'
  have c2 : keyCount teamKey (e, a) (upsertBatch teamKey t rs) = 1 := by
    rw [keyCount_upsertBatch]
    rcases ha with h' | h'
    · rw [if_pos h']
    · split
      · rfl
      · exact h'
  have c3 : ∀ r ∈ upsertBatch teamKey t rs, r.event_id = e →
      r.team_id = h ∨ r.team_id = a := by
    intro r hr hre
    rcases mem_of_mem_upsertBatch hr with h' | h'
    · exact hall_t r h' hre
    · exact hall_rs r h' hre
  refine ⟨c1, c2, c3, ?_⟩
  rw [count_event_split _ e h a hne c3, c1, c2]

/-- Any Phase 2 team-statistics buffer's rows for event `e` carry the
teams of `e`'s summary. -/
theorem phase2TeamBuffer_event_teams {summary : Nat → Option Summary}
    {e h a : Nat} {sm : Summary} (hsm : summary e = some sm)
    (hteams : sm.teams.map (fun tb => tb.team_id) = [h, a]) (ids : List Nat) :
    ∀ r ∈ phase2TeamBuffer summary ids, r.event_id = e →
      r.team_id = h ∨ r.team_id = a := by
  intro r hr hre
  rcases List.mem_flatMap.mp hr with ⟨i, _, hri⟩
  have hie : i = e := (teamRowsOf_event hri).symm.trans hre
  subst hie
  have hkeys : (teamRowsOf summary i).map teamKey = [(i, h), (i, a)] := by
    rw [teamRowsOf_keys hsm]
    have : sm.teams.map (fun tb => (i, tb.team_id)) =
        (sm.teams.map (fun tb => tb.team_id)).map (fun x => (i, x)) := by
      rw [List.map_map]
      rfl
    rw [this, hteams]
    rfl
  have hk : teamKey r ∈ [(i, h), (i, a)] := by
    rw [← hkeys]
    exact List.mem_map_of_mem teamKey hri
  rcases List.mem_cons.mp hk with h' | h'
  · exact Or.inl (congrArg Prod.snd h')
  · rcases List.mem_cons.mp h' with h'' | h''
    · exact Or.inr (congrArg Prod.snd h'')
    · cases h''

/-- If `e ∈ ids`, the Phase 2 team buffer contains both of `e`'s keys. -/
theorem phase2TeamBuffer_keys_mem {summary : Nat → Option Summary}
    {e h a : Nat} {sm : Summary} (hsm : summary e = some sm)
    (hteams : sm.teams.map (fun tb => tb.team_id) = [h, a]) {ids : List Nat}
    (hmem : e ∈ ids) :
    (e, h) ∈ (phase2TeamBuffer summary ids).map teamKey ∧
    (e, a) ∈ (phase2TeamBuffer summary ids).map teamKey := by
  have hkeys : (teamRowsOf summary e).map teamKey = [(e, h), (e, a)] := by
    rw [teamRowsOf_keys hsm]
    have : sm.teams.map (fun tb => (e, tb.team_id)) =
        (sm.teams.map (fun tb => tb.team_id)).map (fun x => (e, x)) := by
      rw [List.map_map]
      rfl
    rw [this, hteams]
    rfl
  constructor
  · have : (e, h) ∈ (teamRowsOf summary e).map teamKey := by
      rw [hkeys]
      exact List.mem_cons_self _ _
    rcases List.mem_map.mp this with ⟨r, hr, hk⟩
    rw [← hk]
    refine List.mem_map_of_mem teamKey ?_
    exact List.mem_flatMap.mpr ⟨e, hmem, hr⟩
  · have : (e, a) ∈ (teamRowsOf summary e).map teamKey := by
      rw [hkeys]
      exact List.mem_cons_of_mem _ (List.mem_cons_self _ _)
    rcases List.mem_map.mp this with ⟨r, hr, hk⟩
    rw [← hk]
    refine List.mem_map_of_mem teamKey ?_
    exact List.mem_flatMap.mpr ⟨e, hmem, hr⟩

/-- Phase 4 leaves the events table untouched (Phases 2/3 write only
statistics tables). -/
theorem phase4_events (summary : Nat → Option Summary) (limit : Nat) (s : Store) :
    (phase4 summary limit s).events = s.events := by
  unfold phase4
  dsimp only
  split <;> rfl

/-- The team-statistics table after Phase 4. -/
theorem phase4_team_statistics (summary : Nat → Option Summary) (limit : Nat)
    (s : Store) :
    (phase4 summary limit s).team_statistics =
      if (phase4GapIds s limit).isEmpty then s.team_statistics
      else upsertBatch teamKey s.team_statistics
        (phase2TeamBuffer summary (phase4GapIds s limit)) := by
  unfold phase4
  dsimp only
  by_cases hc : (phase4GapIds s limit).isEmpty
  · rw [if_pos hc, if_pos hc]
  · rw [if_neg hc, if_neg hc]
    rfl

theorem hasStats_iff (s : Store) (i : Nat) :
    hasStats s i = true ↔ ∃ r ∈ s.team_statistics, r.event_id = i := by
  simp [hasStats, List.any_eq_true]

/-- A row for an event survives any `INSERT OR REPLACE` batch: it is
either untouched or replaced by a row with the same `(event, team)`
key. -/
theorem hasRow_upsertBatch {t : List TeamStatRow} {i : Nat} (rs : List TeamStatRow)
    (hx : ∃ x ∈ t, x.event_id = i) :
    ∃ y ∈ upsertBatch teamKey t rs, y.event_id = i := by
  obtain ⟨x, hxm, hxe⟩ := hx
  obtain ⟨y, hym, hyk⟩ :=
    exists_key_upsertBatch_of_exists teamKey rs ⟨x, hxm, rfl⟩
  refine ⟨y, hym, ?_⟩
  have := congrArg Prod.fst hyk
  simpa [teamKey, hxe] using this

/-- A batch row for an event guarantees a row for that event after the
upsert. -/
theorem hasRow_upsertBatch_of_batch {t rs : List TeamStatRow} {i : Nat}
    (hr : ∃ r ∈ rs, r.event_id = i) :
    ∃ y ∈ upsertBatch teamKey t rs, y.event_id = i := by
  obtain ⟨r, hrm, hre⟩ := hr
  obtain ⟨y, hym, hyk⟩ := exists_key_upsertBatch_of_mem teamKey t hrm
  refine ⟨y, hym, ?_⟩
  have := congrArg Prod.fst hyk
  simpa [teamKey, hre] using this

/-- `hasStats` is preserved by a Phase 4 pass with any limit. -/
theorem hasStats_phase4 (summary : Nat → Option Summary) (limit : Nat)
    (s : Store) (i : Nat) (h : hasStats s i = true) :
    hasStats (phase4 summary limit s) i = true := by
  have hx := (hasStats_iff s i).mp h
  apply (hasStats_iff _ _).mpr
  rw [phase4_team_statistics]
  by_cases hc : (phase4GapIds s limit).isEmpty
  · rw [if_pos hc]
    exact hx
  · rw [if_neg hc]
    exact hasRow_upsertBatch _ hx

/-- A nonempty per-event row list exists in any Phase 2 buffer whose id
list contains the event. -/
theorem phase2TeamBuffer_hasRow {summary : Nat → Option Summary} {i : Nat}
    {ids : List Nat} (hmem : i ∈ ids) (hne : teamRowsOf summary i ≠ []) :
    ∃ r ∈ phase2TeamBuffer summary ids, r.event_id = i := by
  obtain ⟨r, hr⟩ := List.exists_mem_of_ne_nil _ hne
  exact ⟨r, List.mem_flatMap.mpr ⟨i, hmem, hr⟩, teamRowsOf_event hr⟩

/-- Evaluation of Phase 5 when the feed carries at least one week. -/
theorem phase5_cons (f : RankingsFeed) (latest : RankingWeek)
    (rest : List RankingWeek) (season : Nat) (s : Store)
    (hf : f.rankings = latest :: rest) :
    phase5 (some f) season s =
      { s with weekly_rankings :=
          s.weekly_rankings.filter (fun r => !rankingKeyMatches season latest.week r) ++
            latest.ranks.map (parseRank season latest.week) } := by
  obtain ⟨rankings⟩ := f
  dsimp only at hf
  subst hf
  rfl

/-! ## Claim theorems -/

/-- C10: `parse_team_statistics` is total and never returns `None`: for
every `event_id`, `team_id`, `home_away` and every statistics list
(including the empty one) it returns a row whose first three components
are exactly the inputs, and an empty statistics array yields the row with
every statistic field `None` (so such a summary still produces a
TeamStatistics row rather than being discarded). -/
theorem parse_team_statistics_total :
    (∀ (event_id team_id : Nat) (home_away : String) (statistics : List Stat),
      ∃ r : TeamStatRow,
        parse_team_statistics event_id team_id home_away statistics = some r ∧
        r.event_id = event_id ∧ r.team_id = team_id ∧ r.home_away = home_away) ∧
    (∀ (event_id team_id : Nat) (home_away : String),
      parse_team_statistics event_id team_id home_away [] =
        some (emptyTeamRow event_id team_id home_away)) := by
  constructor
  · intro e t ha stats
    exact ⟨_, rfl, rfl, rfl, rfl⟩
  · intro e t ha
    rfl

/-- C8 counterexample: the payload `badPlayerC8` has a present athlete id
(`"x"`) and a stat array of fewer than 10 entries, yet
`parse_player_statistics` does not return `None` — the `int(athlete_id)`
conversion raises `ValueError` before the length check. -/
theorem parse_player_statistics_raises_on_bad_id :
    parse_player_statistics 1 2 badPlayerC8 ≠ Except.ok none ∧
    parse_player_statistics 1 2 badPlayerC8 = Except.error "ValueError" := by
  constructor
  · intro h
    rw [show parse_player_statistics 1 2 badPlayerC8 =
      Except.error "ValueError" from rfl] at h
    exact Except.noConfusion h
  · rfl

/-- C8 (amended): a payload with an absent (or empty, hence falsy)
athlete id yields `None`; a payload whose athlete id converts to an
integer but whose stat array has fewer than 10 entries yields `None`; a
row is created only from payloads with at least 10 stat entries.  (A
present athlete id that fails integer conversion instead raises
`ValueError`, caught by `process_game`; either way no row is created and
discarded payloads are not retried.) -/
theorem parse_player_statistics_guards :
    (∀ (e t : Nat) (p : PlayerData), p.athlete.id = none →
      parse_player_statistics e t p = Except.ok none) ∧
    (∀ (e t : Nat) (p : PlayerData), p.athlete.id = some "" →
      parse_player_statistics e t p = Except.ok none) ∧
    (∀ (e t : Nat) (p : PlayerData) (idStr : String) (n : Int),
      p.athlete.id = some idStr → pyInt idStr = some n → p.stats.length < 10 →
      parse_player_statistics e t p = Except.ok none) ∧
    (∀ (e t : Nat) (p : PlayerData) (r : PlayerRow),
      parse_player_statistics e t p = Except.ok (some r) →
      10 ≤ p.stats.length) := by
  refine ⟨?_, ?_, ?_, ?_⟩
  · intro e t p h
    unfold parse_player_statistics
    rw [h]
    rfl
  · intro e t p h
    unfold parse_player_statistics
    rw [h]
    rfl
  · intro e t p idStr n hid hn hlen
    unfold parse_player_statistics
    split
    · rename_i heq
      rw [hid] at heq
      exact Option.noConfusion heq
    · rename_i s heq
      rw [hid] at heq
      cases Option.some.inj heq
      by_cases hemp : idStr = ""
      · rw [if_pos hemp]
        rfl
      · rw [if_neg hemp]
        have hok : pyIntE idStr = Except.ok n := by
          unfold pyIntE
          rw [hn]
        rw [hok, except_ok_bind]
        dsimp only
        rw [if_pos hlen]
        rfl
  · intro e t p r h
    unfold parse_player_statistics at h
    split at h
    · exact Option.noConfusion (Except.ok.inj h)
    · split at h
      · exact Option.noConfusion (Except.ok.inj h)
      · rcases except_bind_ok h with ⟨aid, _, h⟩
        dsimp only at h
        split at h
        · exact Option.noConfusion (Except.ok.inj h)
        · rename_i hlen
          exact Nat.le_of_not_lt hlen

/-- C8 (amended) witness: a concrete payload with a valid athlete id and
a 3-entry stat array is discarded with `None`. -/
theorem parse_player_statistics_guards_witness :
    (PlayerData.mk ⟨some "15", "A B", "A.B."⟩ true false ["1", "2", "3"]).athlete.id =
        some "15" ∧
      pyInt "15" = some 15 ∧
      (PlayerData.mk ⟨some "15", "A B", "A.B."⟩ true false ["1", "2", "3"]).stats.length < 10 ∧
      parse_player_statistics 1 2
          (PlayerData.mk ⟨some "15", "A B", "A.B."⟩ true false ["1", "2", "3"]) =
        Except.ok none :=
  ⟨rfl, by decide, by decide,
    parse_player_statistics_guards.2.2.1 1 2 _ "15" 15 rfl (by decide) (by decide)⟩

/-- C7: Phase 1 is idempotent: with unchanged upstream parse results, a
second run leaves the events table exactly as the first (same contents,
hence same row count), and the `event_id`-keyed upsert creates no
duplicate Event rows. -/
theorem phase1_idempotent (feed : List (Option Event)) (s : Store)
    (hnd : (s.events.map eventKey).Nodup) :
    phase1 feed (phase1 feed s) = phase1 feed s ∧
    (phase1 feed (phase1 feed s)).events.length = (phase1 feed s).events.length ∧
    ((phase1 feed s).events.map eventKey).Nodup := by
  have hid : phase1 feed (phase1 feed s) = phase1 feed s := by
    unfold phase1
    dsimp only
    rw [upsertBatch_idem]
  refine ⟨hid, by rw [hid], ?_⟩
  unfold phase1
  dsimp only
  exact nodupKeys_upsertBatch _ hnd

/-- C7 witness: a concrete feed (with a duplicated event id and a parse
failure) applied twice to the empty store. -/
theorem phase1_idempotent_witness :
    ((emptyStore.events.map eventKey).Nodup) ∧
      phase1 feedW (phase1 feedW emptyStore) = phase1 feedW emptyStore ∧
      ((phase1 feedW emptyStore).events.map eventKey).Nodup :=
  ⟨by decide, (phase1_idempotent feedW emptyStore (by decide)).1,
    (phase1_idempotent feedW emptyStore (by decide)).2.2⟩

/-- C2 counterexample: with `backfillLimit = 1`, the store `storeC2`
(one statistics gap, one distinct line-score gap) makes Phase 4 feed 2
event ids into Phase 2 — the union is not capped at `backfillLimit`. -/
theorem phase4GapIds_exceeds_limit :
    (phase4GapIds storeC2 1).length = 2 ∧
    ¬ ((phase4GapIds storeC2 1).length ≤ 1) := by
  constructor <;> decide

/-- C2 (amended): each gap class is capped at `backfillLimit`
individually, so the de-duplicated union Phase 4 feeds into Phase 2
contains at most `2 * backfillLimit` event ids (the union itself is not
re-capped). -/
theorem phase4GapIds_le_twice_limit (s : Store) (limit : Nat) :
    (phase4GapIds s limit).length ≤ 2 * limit := by
  unfold phase4GapIds
  refine le_trans (List.Sublist.length_le (List.dedup_sublist _)) ?_
  rw [List.length_append]
  have ha : (statsGapIds s limit).length ≤ limit := by
    unfold statsGapIds
    rw [List.length_map, List.length_take]
    exact min_le_left _ _
  have hb : (lineScoreGapIds s limit).length ≤ limit := by
    unfold lineScoreGapIds
    rw [List.length_map, List.length_take]
    exact min_le_left _ _
  omega

/-- C5 counterexample: Phase 6 only upserts — after a run in which group
8's fresh payload contains only team 7, the stored rows for
`(2026, group 8)` are not the fresh set: the stale row for team 42 (a
team absent upstream) is still present. -/
theorem phase6_keeps_stale_row :
    (phase6 feedC5 2026 storeC5).standings.filter
        (fun r => r.season_id == 2026 && r.group_id == 8) ≠
      [StandEntry.mk 7 [("wins", some ⟨12, 0⟩)]].map (parseStanding 2026 2 8) ∧
    42 ∈ ((phase6 feedC5 2026 storeC5).standings.filter
        (fun r => r.season_id == 2026 && r.group_id == 8)).map (fun r => r.team_id) := by
  constructor <;> decide

/-- C5 (amended): Phase 6 merges by key rather than replacing by group:
every successfully fetched entry has a row with its
`(season, group, team)` key afterwards, and any stored row whose key is
not among the freshly parsed batch is preserved unchanged in number — in
particular a team absent from the fresh upstream set keeps its old
row. -/
theorem phase6_upsert_semantics (standingsFeed : Nat → Option (List StandEntry))
    (season : Nat) (s : Store) (g : Nat) (entries : List StandEntry)
    (hg : g ∈ phase6Conferences season s)
    (hfeed : standingsFeed g = some entries) :
    (∀ en ∈ entries, ∃ row ∈ (phase6 standingsFeed season s).standings,
        standingKey row = (season, g, en.team_id)) ∧
    (∀ k, k ∉ (phase6Data standingsFeed season s).map standingKey →
      keyCount standingKey k (phase6 standingsFeed season s).standings =
        keyCount standingKey k s.standings) := by
  constructor
  · intro en hen
    have hmem : parseStanding season 2 g en ∈ phase6Data standingsFeed season s := by
      unfold phase6Data
      rw [List.mem_flatMap]
      refine ⟨g, hg, ?_⟩
      rw [hfeed]
      exact List.mem_map_of_mem _ hen
    obtain ⟨y, hy, hk⟩ :=
      exists_key_upsertBatch_of_mem standingKey s.standings hmem
    exact ⟨y, hy, by rw [hk]; rfl⟩
  · intro k hk
    show keyCount standingKey k (upsertBatch standingKey s.standings _) = _
    rw [keyCount_upsertBatch, if_neg hk]

/-- C5 (amended) witness: the concrete stale-row scenario. -/
theorem phase6_upsert_semantics_witness :
    (8 ∈ phase6Conferences 2026 storeC5) ∧
      feedC5 8 = some [StandEntry.mk 7 [("wins", some ⟨12, 0⟩)]] ∧
      (∀ en ∈ [StandEntry.mk 7 [("wins", some ⟨12, 0⟩)]],
        ∃ row ∈ (phase6 feedC5 2026 storeC5).standings,
          standingKey row = (2026, 8, en.team_id)) :=
  ⟨by decide, by decide,
    (phase6_upsert_semantics feedC5 2026 storeC5 8 _ (by decide) (by decide)).1⟩

/-- C3: Phase 5 deletes all weekly-rankings rows for
`(season, week, rankingType)` and inserts exactly the freshly parsed set:
afterwards the rows for that key equal the new set, and rows for every
other key are untouched. -/
theorem phase5_replace_semantics (feed : RankingsFeed) (latest : RankingWeek)
    (rest : List RankingWeek) (season : Nat) (s : Store)
    (hfeed : feed.rankings = latest :: rest) :
    (phase5 (some feed) season s).weekly_rankings.filter
        (rankingKeyMatches season latest.week) =
      latest.ranks.map (parseRank season latest.week) ∧
    (phase5 (some feed) season s).weekly_rankings.filter
        (fun r => !rankingKeyMatches season latest.week r) =
      s.weekly_rankings.filter
        (fun r => !rankingKeyMatches season latest.week r) := by
  rw [phase5_cons feed latest rest season s hfeed]
  dsimp only
  constructor
  · rw [List.filter_append, List.filter_filter]
    have h1 : s.weekly_rankings.filter (fun a =>
        rankingKeyMatches season latest.week a &&
          !rankingKeyMatches season latest.week a) = [] := by
      apply List.filter_eq_nil_iff.mpr
      intro a _
      simp
    have h2 : (latest.ranks.map (parseRank season latest.week)).filter
        (rankingKeyMatches season latest.week) =
        latest.ranks.map (parseRank season latest.week) := by
      apply List.filter_eq_self.mpr
      intro a ha
      rcases List.mem_map.mp ha with ⟨rk, _, rfl⟩
      simp [rankingKeyMatches, parseRank]
    rw [h1, h2, List.nil_append]
  · rw [List.filter_append, List.filter_filter]
    have h3 : s.weekly_rankings.filter (fun a =>
        !rankingKeyMatches season latest.week a &&
          !rankingKeyMatches season latest.week a) =
        s.weekly_rankings.filter (fun a => !rankingKeyMatches season latest.week a) := by
      apply List.filter_congr
      intro a _
      exact Bool.and_self _
    have h4 : (latest.ranks.map (parseRank season latest.week)).filter
        (fun r => !rankingKeyMatches season latest.week r) = [] := by
      apply List.filter_eq_nil_iff.mpr
      intro a ha
      rcases List.mem_map.mp ha with ⟨rk, _, rfl⟩
      simp [rankingKeyMatches, parseRank]
    rw [h3, h4, List.append_nil]

/-- C3 witness: week 10 published with 25 teams, then re-published with
24 — exactly 24 rows remain for week 10, no stale 25th row. -/
theorem phase5_replace_semantics_witness :
    (rankFeed 10 24).rankings =
        { week := 10, ranks := (List.range 24).map (fun i =>
            { team_id := i + 1
              current := (i : Int) + 1
              previous := none
              points := ⟨(1600 : Int) - i, 0⟩
              first_place_votes := 0 }) } :: [] ∧
      ((phase5 (some (rankFeed 10 24)) 2026
          (phase5 (some (rankFeed 10 25)) 2026 emptyStore)).weekly_rankings.filter
        (rankingKeyMatches 2026 10)).length = 24 := by
  refine ⟨rfl, ?_⟩
  rw [(phase5_replace_semantics (rankFeed 10 24) _ []
    2026 (phase5 (some (rankFeed 10 25)) 2026 emptyStore) rfl).1]
  simp

/-- C4 counterexample: a store-level exception in Phase 3's team-stats
`executemany` escapes the phase — the result is the propagated error, not
a continued run with the error recorded. -/
theorem phase3_write_failure_escapes :
    phase3Run (some "disk I/O error") none runStateC4 =
        Except.error "disk I/O error" ∧
      ¬ ∃ st' : RunState,
        phase3Run (some "disk I/O error") none runStateC4 = Except.ok st' := by
  constructor
  · rfl
  · rintro ⟨st', h⟩
    rw [show phase3Run (some "disk I/O error") none runStateC4 =
      Except.error "disk I/O error" from rfl] at h
    exact Except.noConfusion h

/-- C4 (amended): a store-level exception during a Phase 3 batch insert
is not caught by the orchestrator: the phase returns the raised error
(nothing is appended to the run's error list and later buffers are not
flushed), and `run`'s outer handler re-raises it, aborting the run.  Only
when no insert raises does Phase 3 flush both buffers, clear them and
leave the error list unchanged. -/
theorem phase3_failure_semantics :
    (∀ (msg : String) (playerRaise : Option String) (st : RunState),
      st.team_stats_buffer ≠ [] →
      phase3Run (some msg) playerRaise st = Except.error msg) ∧
    (∀ st : RunState, phase3Run none none st =
      Except.ok
        { store := phase3Insert st.store st.team_stats_buffer st.player_stats_buffer
          team_stats_buffer := []
          player_stats_buffer := []
          errors := st.errors }) := by
  constructor
  · intro msg pr st hne
    obtain ⟨store, tb, pb, errs⟩ := st
    cases tb with
    | nil => exact absurd rfl hne
    | cons a l => rfl
  · intro st
    obtain ⟨store, tb, pb, errs⟩ := st
    cases tb <;> cases pb <;> rfl

/-- C1: gap convergence.  With a stable upstream whose summaries parse
to at least one TeamStatistics row for every completed event, and
`backfillLimit` at least the number `K` of completed events lacking
statistics, one Phase 4 pass leaves zero completed events without
TeamStatistics rows, a second pass detects zero statistics gaps, and —
for any limit — a pass never creates a new gap (the gap set shrinks
monotonically). -/
theorem gap_convergence (summary : Nat → Option Summary) (s : Store) (limit : Nat)
    (hup : ∀ ev ∈ s.events, ev.is_completed = true →
      teamRowsOf summary ev.event_id ≠ [])
    (hK : (statsGapEvents s).length ≤ limit) :
    statsGapEvents (phase4 summary limit s) = [] ∧
    (∀ limit' : Nat, statsGapIds (phase4 summary limit s) limit' = []) ∧
    (∀ limit' : Nat, ∀ ev ∈ s.events, ev ∉ statsGapEvents s →
      ev ∉ statsGapEvents (phase4 summary limit' s)) := by
  have hkey : ∀ ev ∈ s.events, ev.is_completed = true →
      hasStats (phase4 summary limit s) ev.event_id = true := by
    intro ev hev hcomp
    by_cases hs : hasStats s ev.event_id
    · exact hasStats_phase4 summary limit s ev.event_id hs
    · have hgap : ev ∈ statsGapEvents s := by
        unfold statsGapEvents
        refine List.mem_filter.mpr ⟨hev, ?_⟩
        simp [hcomp, hs]
      have hid : ev.event_id ∈ phase4GapIds s limit := mem_phase4GapIds hgap hK
      have hc : (phase4GapIds s limit).isEmpty = false := by
        cases hgl : phase4GapIds s limit with
        | nil => rw [hgl] at hid; cases hid
        | cons x xs => rfl
      apply (hasStats_iff _ _).mpr
      rw [phase4_team_statistics, if_neg (by rw [hc]; exact Bool.false_ne_true)]
      exact hasRow_upsertBatch_of_batch
        (phase2TeamBuffer_hasRow hid (hup ev hev hcomp))
  have ha : statsGapEvents (phase4 summary limit s) = [] := by
    unfold statsGapEvents
    rw [phase4_events]
    apply List.filter_eq_nil_iff.mpr
    intro ev hev
    intro hcontra
    simp only [Bool.and_eq_true] at hcontra
    rcases hcontra with ⟨hcomp, hnot⟩
    rw [hkey ev hev hcomp] at hnot
    cases hnot
  refine ⟨ha, ?_, ?_⟩
  · intro limit'
    unfold statsGapIds
    unfold statsGapEvents at ha
    rw [ha]
    simp [sortByDateDesc]
  · intro limit' ev hev hnot hmem
    unfold statsGapEvents at hmem
    rw [phase4_events] at hmem
    rcases List.mem_filter.mp hmem with ⟨_, hpred⟩
    simp only [Bool.and_eq_true] at hpred
    rcases hpred with ⟨hcomp, hnot'⟩
    have hs : hasStats s ev.event_id = true := by
      by_contra hs
      apply hnot
      unfold statsGapEvents
      exact List.mem_filter.mpr ⟨hev, by simp [hcomp, hs]⟩
    rw [hasStats_phase4 summary limit' s ev.event_id hs] at hnot'
    cases hnot'

/-- C1 witness: a store with one completed event lacking statistics, an
upstream summary carrying its two team boxscores, and limit 1 ≥ K = 1. -/
theorem gap_convergence_witness :
    (∀ ev ∈ storeC1.events, ev.is_completed = true →
      teamRowsOf summaryW ev.event_id ≠ []) ∧
      (statsGapEvents storeC1).length ≤ 1 ∧
      statsGapEvents (phase4 summaryW 1 storeC1) = [] :=
  ⟨by decide, by decide,
    (gap_convergence summaryW storeC1 1 (by decide) (by decide)).1⟩

/-- C6: for a completed event whose summary carries the canonical two
distinct teams, one successful Phase 2/3 cycle leaves exactly 2
TeamStatistics rows for the event — one per `(event, team)` key — and any
number of replays of the cycle, or of Phase 4 over the result, still
leaves exactly 2. -/
theorem team_statistics_cardinality (summary : Nat → Option Summary)
    (ids : List Nat) (s : Store) (e h a : Nat) (sm : Summary)
    (hmem : e ∈ ids) (hne : h ≠ a)
    (hsm : summary e = some sm)
    (hteams : sm.teams.map (fun tb => tb.team_id) = [h, a])
    (hinit : ∀ r ∈ s.team_statistics, r.event_id = e →
      r.team_id = h ∨ r.team_id = a) :
    ((phase23Cycle summary ids s).team_statistics.filter
        (fun r => r.event_id == e)).length = 2 ∧
    (∀ n : Nat,
      (((phase23Cycle summary ids)^[n] (phase23Cycle summary ids s)).team_statistics.filter
        (fun r => r.event_id == e)).length = 2) ∧
    (∀ limit : Nat,
      ((phase4 summary limit (phase23Cycle summary ids s)).team_statistics.filter
        (fun r => r.event_id == e)).length = 2) := by
  have hbatch := phase2TeamBuffer_event_teams hsm hteams ids
  have hkeys := phase2TeamBuffer_keys_mem hsm hteams hmem
  have hcycle_ts : ∀ x : Store, (phase23Cycle summary ids x).team_statistics =
      upsertBatch teamKey x.team_statistics (phase2TeamBuffer summary ids) :=
    fun x => rfl
  have base := teamBatch_two_rows s.team_statistics (phase2TeamBuffer summary ids)
    e h a hne hinit hbatch (Or.inl hkeys.1) (Or.inl hkeys.2)
  have inv : ∀ n : Nat,
      keyCount teamKey (e, h)
        (((phase23Cycle summary ids)^[n] (phase23Cycle summary ids s)).team_statistics) = 1 ∧
      keyCount teamKey (e, a)
        (((phase23Cycle summary ids)^[n] (phase23Cycle summary ids s)).team_statistics) = 1 ∧
      (∀ r ∈ (((phase23Cycle summary ids)^[n] (phase23Cycle summary ids s)).team_statistics),
        r.event_id = e → r.team_id = h ∨ r.team_id = a) ∧
      ((((phase23Cycle summary ids)^[n] (phase23Cycle summary ids s)).team_statistics).filter
        (fun r => r.event_id == e)).length = 2 := by
    intro n
    induction n with
    | zero =>
      rw [Function.iterate_zero_apply, hcycle_ts]
      exact base
    | succ n ih =>
      rw [Function.iterate_succ_apply', hcycle_ts]
      exact teamBatch_two_rows _ _ e h a hne ih.2.2.1 hbatch
        (Or.inr ih.1) (Or.inr ih.2.1)
  refine ⟨base.2.2.2, fun n => (inv n).2.2.2, ?_⟩
  intro limit
  rw [phase4_team_statistics]
  by_cases hc : (phase4GapIds (phase23Cycle summary ids s) limit).isEmpty
  · rw [if_pos hc, hcycle_ts]
    exact base.2.2.2
  · rw [if_neg hc]
    have hb2 := phase2TeamBuffer_event_teams hsm hteams
      (phase4GapIds (phase23Cycle summary ids s) limit)
    have base' := base
    rw [← hcycle_ts s] at base'
    exact (teamBatch_two_rows _ _ e h a hne base'.2.2.1 hb2
      (Or.inr base'.1) (Or.inr base'.2.1)).2.2.2

/-- C6 witness: one completed event, upstream summary with the canonical
home/away pair, run on a store with no prior rows for the event. -/
theorem team_statistics_cardinality_witness :
    (1 ∈ [1]) ∧
      summaryW 1 = some ⟨[⟨10, "home", []⟩, ⟨20, "away", []⟩], []⟩ ∧
      ((phase23Cycle summaryW [1] storeC1).team_statistics.filter
        (fun r => r.event_id == 1)).length = 2 :=
  ⟨by decide, by decide,
    (team_statistics_cardinality summaryW [1] storeC1 1 10 20
      ⟨[⟨10, "home", []⟩, ⟨20, "away", []⟩], []⟩
      (by decide) (by decide) (by decide) (by decide) (by decide)).1⟩

/-- C9: concurrency safety of Phase 2.  Each worker's appends to a
shared buffer are atomic (CPython `list.append`), so any concurrent
execution yields an interleaving (`Schedule`) of the per-event row
sequences.  Any two such executions — e.g. `workers = 1` (the flat
concatenation, which is a `Schedule`) and `workers = 20` — produce
buffers that are permutations of each other with equal lengths; under a
well-formed upstream (distinct event ids, per-event distinct team ids
and `(team, athlete)` pairs) neither buffer has duplicate keys, and the
store tables after the Phase 3 flush are permutations with identical row
counts: no parsed row is lost or duplicated. -/
theorem phase2_concurrency_safety (summary : Nat → Option Summary)
    (ids : List Nat) (s : Store)
    (lT₁ lT₂ : List TeamStatRow) (lP₁ lP₂ : List PlayerRow)
    (hT₁ : Schedule (ids.map (teamRowsOf summary)) lT₁)
    (hT₂ : Schedule (ids.map (teamRowsOf summary)) lT₂)
    (hP₁ : Schedule (ids.map (playerRowsOf summary)) lP₁)
    (hP₂ : Schedule (ids.map (playerRowsOf summary)) lP₂)
    (hids : ids.Nodup)
    (hteam : ∀ i ∈ ids, ((teamRowsOf summary i).map (fun r => r.team_id)).Nodup)
    (hplayer : ∀ i ∈ ids, ((playerRowsOf summary i).map
      (fun r => (r.team_id, r.athlete_id))).Nodup) :
    lT₁.Perm lT₂ ∧ lT₁.length = lT₂.length ∧
    (lT₁.map teamKey).Nodup ∧ (lT₂.map teamKey).Nodup ∧
    lP₁.Perm lP₂ ∧ lP₁.length = lP₂.length ∧
    (lP₁.map playerKey).Nodup ∧ (lP₂.map playerKey).Nodup ∧
    (phase3Insert s lT₁ lP₁).team_statistics.Perm
      (phase3Insert s lT₂ lP₂).team_statistics ∧
    (phase3Insert s lT₁ lP₁).team_statistics.length =
      (phase3Insert s lT₂ lP₂).team_statistics.length ∧
    (phase3Insert s lT₁ lP₁).player_statistics.Perm
      (phase3Insert s lT₂ lP₂).player_statistics ∧
    (phase3Insert s lT₁ lP₁).player_statistics.length =
      (phase3Insert s lT₂ lP₂).player_statistics.length := by
  have hTflat : ((ids.map (teamRowsOf summary)).flatten.map teamKey).Nodup :=
    flatten_keys_nodup (fun r => r.event_id) (fun r => r.team_id) hids
      (fun i _ r hr => teamRowsOf_event hr) hteam
  have hPflat : ((ids.map (playerRowsOf summary)).flatten.map playerKey).Nodup :=
    flatten_keys_nodup (fun r => r.event_id) (fun r => (r.team_id, r.athlete_id))
      hids (fun i _ r hr => playerRowsOf_event hr) hplayer
  have pT₁ := schedule_perm hT₁
  have pT₂ := schedule_perm hT₂
  have pP₁ := schedule_perm hP₁
  have pP₂ := schedule_perm hP₂
  have hTperm : lT₁.Perm lT₂ := pT₁.trans pT₂.symm
  have hPperm : lP₁.Perm lP₂ := pP₁.trans pP₂.symm
  have ndT₁ : (lT₁.map teamKey).Nodup := ((pT₁.map teamKey).nodup_iff).mpr hTflat
  have ndT₂ : (lT₂.map teamKey).Nodup := ((pT₂.map teamKey).nodup_iff).mpr hTflat
  have ndP₁ : (lP₁.map playerKey).Nodup := ((pP₁.map playerKey).nodup_iff).mpr hPflat
  have ndP₂ : (lP₂.map playerKey).Nodup := ((pP₂.map playerKey).nodup_iff).mpr hPflat
  have hTstore : (phase3Insert s lT₁ lP₁).team_statistics.Perm
      (phase3Insert s lT₂ lP₂).team_statistics :=
    upsertBatch_perm_congr s.team_statistics hTperm ndT₁
  have hPstore : (phase3Insert s lT₁ lP₁).player_statistics.Perm
      (phase3Insert s lT₂ lP₂).player_statistics :=
    upsertBatch_perm_congr s.player_statistics hPperm ndP₁
  exact ⟨hTperm, hTperm.length_eq, ndT₁, ndT₂, hPperm, hPperm.length_eq,
    ndP₁, ndP₂, hTstore, hTstore.length_eq, hPstore, hPstore.length_eq⟩

/-- C9 witness: two events with canonical summaries; the sequential
buffer order is itself a schedule. -/
theorem phase2_concurrency_safety_witness :
    Schedule ([1, 2].map (teamRowsOf summaryW))
        (([1, 2].map (teamRowsOf summaryW)).flatten) ∧
      ([1, 2] : List Nat).Nodup ∧
      (([1, 2].map (teamRowsOf summaryW)).flatten.Perm
        (([1, 2].map (teamRowsOf summaryW)).flatten)) :=
  ⟨schedule_flatten _, by decide,
    (phase2_concurrency_safety summaryW [1, 2] emptyStore _ _ _ _
      (schedule_flatten _) (schedule_flatten _) (schedule_flatten _)
      (schedule_flatten _) (by decide) (by decide) (by decide)).1⟩

/-- C4 (amended) witness: the concrete failing flush. -/
theorem phase3_failure_semantics_witness :
    runStateC4.team_stats_buffer ≠ [] ∧
      phase3Run (some "database is locked") none runStateC4 =
        Except.error "database is locked" :=
  ⟨by decide, phase3_failure_semantics.1 "database is locked" none runStateC4 (by decide)⟩

end Ncaab
